import Mathlib

/-!
Shallow embedding of the change-detection and state-persistence core of
`src/repo_summary_bot.py` (class `GitHubRepoBot`), together with proofs of
the testable properties stated in the specification.

Modelling conventions:
* Timestamps are modelled as `Int` (a UTC instant, in seconds).  The Python
  code stores `datetime.utcnow().isoformat()` strings and reads them back
  through `datetime.fromisoformat`, an identity round trip on the stored
  instant, so the stored `last_check_timestamp` column is embedded directly
  as the instant it denotes.  `timedelta(days=7)` becomes the constant
  `sevenDays` (in seconds).
* The GitHub commit/pull endpoints, the OpenAI completion call and the
  `datetime.fromisoformat` parsing of the `updated_at` field of a fetched
  pull request are external to the repository; they are passed in as the
  fields of an `Env` record.  A fetch that raises
  `requests.exceptions.RequestException` (or any other error) is an
  `Except.error`; the completion call raising is likewise an `Except.error`
  carrying `str(e)`.
* The two SQLite tables are embedded as lists of rows; the
  `AUTOINCREMENT` id column of `summaries` is fed from a `next_id` counter.
-/

/-- A commit object as returned by `GET /repos/.../commits`: the fields the
program reads are `sha`, `commit.message`, `commit.author.name` and
`commit.author.date`. -/
structure Commit where
  sha : String
  message : String
  authorName : String
  authorDate : String
deriving DecidableEq

/-- A pull-request object as returned by `GET /repos/.../pulls`: the fields
the program reads are `state`, `title`, `user.login` and `updated_at`. -/
structure Pull where
  state : String
  title : String
  userLogin : String
  updatedAt : String
deriving DecidableEq

/-- One row of the `repo_states` table
(`repo_name PRIMARY KEY, last_commit_sha, last_check_timestamp`). -/
structure RepoStateRow where
  repo_name : String
  last_commit_sha : String
  last_check_timestamp : Int
deriving DecidableEq

/-- One row of the `summaries` table
(`id AUTOINCREMENT, repo_name, summary, changes_count, timestamp`). -/
structure SummaryRow where
  id : Nat
  repo_name : String
  summary : String
  changes_count : Nat
  timestamp : Int
deriving DecidableEq

/-- The SQLite database `repo_summaries.db`: the two tables created by
`init_database`, plus the autoincrement cursor for `summaries.id`. -/
structure DB where
  repo_states : List RepoStateRow
  summaries : List SummaryRow
  next_id : Nat
deriving DecidableEq

/-- The external world a check cycle interacts with: `get_repo_commits`
(repository and `since` instant), `get_repo_pulls`, the OpenAI
chat-completion call of `generate_summary`, the `datetime.fromisoformat`
parsing applied to the `updated_at` strings of fetched pull requests, and
the current instant `datetime.utcnow()`. -/
structure Env where
  fetchCommits : String → Int → Except String (List Commit)
  fetchPulls : String → Except String (List Pull)
  complete : String → Except String String
  parseTime : String → Int
  now : Int

/-- `timedelta(days=7)` in seconds. -/
def sevenDays : Int := 7 * 24 * 60 * 60

/-- `get_last_check_time`: `SELECT last_check_timestamp FROM repo_states
WHERE repo_name = ?`, `None` when no row exists. -/
def get_last_check_time (db : DB) (repo_name : String) : Option Int :=
  (db.repo_states.find? (fun r => r.repo_name == repo_name)).map
    (fun r => r.last_check_timestamp)

/-- `SELECT last_commit_sha, last_check_timestamp FROM repo_states WHERE
repo_name = ?` as a whole row, for stating frame properties. -/
def getRepoState (db : DB) (repo_name : String) : Option RepoStateRow :=
  db.repo_states.find? (fun r => r.repo_name == repo_name)

/-- `INSERT OR REPLACE` on a table whose primary key is `repo_name`: the row
with the same key, if any, is replaced. -/
def upsertRow (rows : List RepoStateRow) (row : RepoStateRow) : List RepoStateRow :=
  row :: rows.filter (fun r => r.repo_name != row.repo_name)

/-- `update_repo_state`: `INSERT OR REPLACE INTO repo_states VALUES
(repo_name, last_commit_sha, utcnow().isoformat())`. -/
def update_repo_state (db : DB) (repo_name : String) (last_commit_sha : String)
    (now : Int) : DB :=
  let row : RepoStateRow :=
    { repo_name := repo_name, last_commit_sha := last_commit_sha,
      last_check_timestamp := now }
  { db with repo_states := upsertRow db.repo_states row }

/-- `COALESCE((SELECT last_commit_sha FROM repo_states WHERE repo_name =
?), empty string)`: the stored SHA for a repository, defaulting to the
empty string when no row exists. -/
def storedShaD (db : DB) (repo_name : String) : String :=
  match getRepoState db repo_name with
  | some r => r.last_commit_sha
  | none => ""

/-- The inline SQL of the pull-request-only branch of
`check_repo_for_changes`: `INSERT OR REPLACE INTO repo_states VALUES (?,
COALESCE((SELECT last_commit_sha FROM repo_states WHERE repo_name = ?),
the empty string), utcnow().isoformat())`. -/
def update_repo_state_pr_only (db : DB) (repo_name : String) (now : Int) : DB :=
  update_repo_state db repo_name (storedShaD db repo_name) now

/-- `save_summary`: `INSERT INTO summaries (repo_name, summary,
changes_count, timestamp) VALUES (?, ?, ?, utcnow().isoformat())`. -/
def save_summary (db : DB) (repo_name summary : String) (changes_count : Nat)
    (now : Int) : DB :=
  { db with
    summaries := db.summaries ++
      [{ id := db.next_id, repo_name := repo_name, summary := summary,
         changes_count := changes_count, timestamp := now }],
    next_id := db.next_id + 1 }

/-- `commit_msg = commit["commit"]["message"].split("\n")[0]`: the first
line of a commit message, i.e. the characters before the first newline
(the whole string when it has no newline, the empty string when it starts
with one — exactly Python index 0 of the split). -/
def firstLine (s : String) : String :=
  String.mk (s.data.takeWhile (fun c => c != '\n'))

/-- Python `str.upper`, character by character. -/
def toUpperStr (s : String) : String :=
  String.mk (s.data.map Char.toUpper)

/-- One formatted commit line of `format_changes_for_ai`. -/
def formatCommitLine (c : Commit) : String :=
  "- " ++ firstLine c.message ++ " (by " ++ c.authorName ++ " on " ++
    c.authorDate ++ ")"

/-- One formatted pull-request line of `format_changes_for_ai`. -/
def formatPullLine (p : Pull) : String :=
  "- [" ++ toUpperStr p.state ++ "] " ++ p.title ++ " (by " ++ p.userLogin ++
    ", updated " ++ p.updatedAt ++ ")"

/-- `format_changes_for_ai(commits, pulls)`: a "Recent Commits:" header and
one line for each of the first 10 commits when `commits` is non-empty, then
a pull-request header (with a leading newline in the appended element) and
one line for each of the first 5 pulls when `pulls` is non-empty, all
joined with a newline. -/
def format_changes_for_ai (commits : List Commit) (pulls : List Pull) : String :=
  let commitPart : List String :=
    if commits.isEmpty then []
    else "Recent Commits:" :: (commits.take 10).map formatCommitLine
  let pullPart : List String :=
    if pulls.isEmpty then []
    else "\nRecent Pull Requests:" :: (pulls.take 5).map formatPullLine
  String.intercalate "\n" (commitPart ++ pullPart)

/-- The f-string prompt template of `generate_summary`. -/
def buildPrompt (changes_text repo_name : String) : String :=
  "\nPlease provide a concise summary of the recent activity in the GitHub repository \x27" ++
  repo_name ++ "\x27:\n\n" ++ changes_text ++
  "\n\nFocus on:\n1. Key features or fixes that were implemented\n2. Notable contributors and their contributions\n3. Overall development trends or patterns\n4. Any significant pull request activity\n\nKeep the summary under 200 words and highlight the most important changes.\n"

/-- `generate_summary(changes_text, repo_name)`: request a completion for
the built prompt; on any exception `e` from the call, return the string
`"Error generating summary: " + str(e)` instead of raising. -/
def generate_summary (env : Env) (changes_text repo_name : String) : String :=
  match env.complete (buildPrompt changes_text repo_name) with
  | .ok text => text
  | .error e => "Error generating summary: " ++ e

/-- The `since` value used by `check_repo_for_changes`: the stored
`last_check_timestamp` when present, else `utcnow() - timedelta(days=7)`. -/
def sinceOf (env : Env) (db : DB) (repo_name : String) : Int :=
  match get_last_check_time db repo_name with
  | some t => t
  | none => env.now - sevenDays

/-- The pull-request filter of `check_repo_for_changes`: when a stored
`last_check_timestamp` exists, keep the fetched pulls whose parsed
`updated_at` is strictly greater than it; on a first-ever check no filter
is applied. -/
def filteredPulls (env : Env) (db : DB) (repo_name : String)
    (pulls : List Pull) : List Pull :=
  match get_last_check_time db repo_name with
  | some t => pulls.filter (fun pr => t < env.parseTime pr.updatedAt)
  | none => pulls

/-- `check_repo_for_changes(repo_name)`: returns the generated summary (or
`None`) together with the database after the cycle.  A
`RequestException` from either fetch — and any other exception — is caught
and turned into a `None` result with the database untouched. -/
def check_repo_for_changes (env : Env) (db : DB) (repo_name : String) :
    Option String × DB :=
  match env.fetchCommits repo_name (sinceOf env db repo_name) with
  | .error _ => (none, db)
  | .ok commits =>
    match env.fetchPulls repo_name with
    | .error _ => (none, db)
    | .ok rawPulls =>
      let pulls := filteredPulls env db repo_name rawPulls
      let total_changes := commits.length + pulls.length
      if total_changes = 0 then (none, db)
      else
        let changes_text := format_changes_for_ai commits pulls
        let summary := generate_summary env changes_text repo_name
        let db1 :=
          match commits with
          | c :: _ => update_repo_state db repo_name c.sha env.now
          | [] => update_repo_state_pr_only db repo_name env.now
        let db2 := save_summary db1 repo_name summary total_changes env.now
        (some summary, db2)

/-- `check_all_repos(repo_list)`: sequentially run the per-repository check
over the list, threading the database through. -/
def check_all_repos (env : Env) (db : DB) (repo_list : List String) : DB :=
  repo_list.foldl (fun d r => (check_repo_for_changes env d r).2) db

/-! Concrete fixtures used to instantiate the proved properties. -/

/-- A concrete fetched commit. -/
def cW : Commit :=
  { sha := "abc123", message := "Fix bug\nmore detail", authorName := "Alice",
    authorDate := "2024-01-01T00:00:00Z" }

/-- A concrete fetched pull request. -/
def pW : Pull :=
  { state := "open", title := "Add feature", userLogin := "bob",
    updatedAt := "aaaa" }

/-- A pull request with a given title, for building lists of distinct
pulls. -/
def mkPullT (t : String) : Pull :=
  { state := "open", title := t, userLogin := "bob", updatedAt := "aaaa" }

/-- Six distinct fetched pull requests (the pulls endpoint returns up to
10 per page). -/
def pullsC : List Pull :=
  [mkPullT "t1", mkPullT "t2", mkPullT "t3", mkPullT "t4", mkPullT "t5",
   mkPullT "t6"]

/-- A fresh database: both tables empty. -/
def dbEmpty : DB := { repo_states := [], summaries := [], next_id := 1 }

/-- A database holding one repository state row for `o/r` with stored
watermark 2. -/
def dbT : DB :=
  { repo_states := [{ repo_name := "o/r", last_commit_sha := "sha0",
                      last_check_timestamp := 2 }],
    summaries := [], next_id := 1 }

/-- An external world where the commit fetch returns one commit and the
pull fetch returns nothing. -/
def envA : Env :=
  { fetchCommits := fun _ _ => .ok [cW], fetchPulls := fun _ => .ok [],
    complete := fun _ => .ok "sum", parseTime := fun s => Int.ofNat s.length,
    now := 1000000 }

/-- An external world where both fetches return nothing. -/
def envB : Env :=
  { fetchCommits := fun _ _ => .ok [], fetchPulls := fun _ => .ok [],
    complete := fun _ => .ok "sum", parseTime := fun s => Int.ofNat s.length,
    now := 1000000 }

/-- An external world with no new commits and one fetched pull request. -/
def envP : Env :=
  { fetchCommits := fun _ _ => .ok [], fetchPulls := fun _ => .ok [pW],
    complete := fun _ => .ok "sum", parseTime := fun s => Int.ofNat s.length,
    now := 1000000 }

/-- An external world whose completion call fails. -/
def envErr : Env :=
  { fetchCommits := fun _ _ => .ok [cW], fetchPulls := fun _ => .ok [],
    complete := fun _ => .error "boom", parseTime := fun s => Int.ofNat s.length,
    now := 1000000 }

/-- An external world whose commit fetch always fails with a transport
error. -/
def envFail : Env :=
  { fetchCommits := fun _ _ => .error "net down", fetchPulls := fun _ => .ok [],
    complete := fun _ => .ok "sum", parseTime := fun s => Int.ofNat s.length,
    now := 1000000 }

/-- An external world returning the six pulls of `pullsC`, all parsing to
instant 3 (past the stored watermark 2 of `dbT`). -/
def envC : Env :=
  { fetchCommits := fun _ _ => .ok [], fetchPulls := fun _ => .ok pullsC,
    complete := fun _ => .ok "sum", parseTime := fun _ => 3, now := 1000000 }

/-- The database produced by a first check of `o/r` against `envA`. -/
def db1W : DB := (check_repo_for_changes envA dbEmpty "o/r").2

/-! Basic frame lemmas about the store operations. -/

/-- `update_repo_state` writes only the `repo_states` table. -/
@[simp] theorem update_repo_state_summaries (db : DB) (r s : String) (n : Int) :
    (update_repo_state db r s n).summaries = db.summaries := rfl

/-- `update_repo_state` does not advance the autoincrement cursor. -/
@[simp] theorem update_repo_state_next_id (db : DB) (r s : String) (n : Int) :
    (update_repo_state db r s n).next_id = db.next_id := rfl

/-- The pull-request-only upsert writes only the `repo_states` table. -/
@[simp] theorem update_repo_state_pr_only_summaries (db : DB) (r : String) (n : Int) :
    (update_repo_state_pr_only db r n).summaries = db.summaries := rfl

/-- The pull-request-only upsert does not advance the autoincrement cursor. -/
@[simp] theorem update_repo_state_pr_only_next_id (db : DB) (r : String) (n : Int) :
    (update_repo_state_pr_only db r n).next_id = db.next_id := rfl

/-- `save_summary` appends exactly one row to the `summaries` table. -/
@[simp] theorem save_summary_summaries (db : DB) (r s : String) (c : Nat) (n : Int) :
    (save_summary db r s c n).summaries =
      db.summaries ++
        [{ id := db.next_id, repo_name := r, summary := s, changes_count := c,
           timestamp := n }] := rfl

/-- `save_summary` does not touch the `repo_states` table. -/
@[simp] theorem save_summary_repo_states (db : DB) (r s : String) (c : Nat) (n : Int) :
    (save_summary db r s c n).repo_states = db.repo_states := rfl

/-- After an upsert for `repo_name`, the stored row for `repo_name` is the
upserted one. -/
theorem getRepoState_update_self (db : DB) (repo sha : String) (now : Int) :
    getRepoState (update_repo_state db repo sha now) repo =
      some { repo_name := repo, last_commit_sha := sha,
             last_check_timestamp := now } := by
  simp [getRepoState, update_repo_state, upsertRow, List.find?]

/-- Unfolding of a successful check cycle: when both fetches succeed and the
change count is non-zero, the result and the final database are exactly the
generate-upsert-append composite. -/
theorem check_success_eq (env : Env) (db : DB) (repo : String)
    (commits : List Commit) (pulls0 : List Pull)
    (hc : env.fetchCommits repo (sinceOf env db repo) = .ok commits)
    (hp : env.fetchPulls repo = .ok pulls0)
    (hne : commits.length + (filteredPulls env db repo pulls0).length ≠ 0) :
    check_repo_for_changes env db repo =
      (some (generate_summary env
          (format_changes_for_ai commits (filteredPulls env db repo pulls0)) repo),
       save_summary
         (match commits with
          | c :: _ => update_repo_state db repo c.sha env.now
          | [] => update_repo_state_pr_only db repo env.now)
         repo
         (generate_summary env
           (format_changes_for_ai commits (filteredPulls env db repo pulls0)) repo)
         (commits.length + (filteredPulls env db repo pulls0).length) env.now) := by
  cases commits with
  | nil =>
    have hne2 : filteredPulls env db repo pulls0 ≠ [] := by
      intro h
      exact hne (by simp [h])
    simp [check_repo_for_changes, hc, hp, hne2]
  | cons c cs => simp [check_repo_for_changes, hc, hp, hne]

/-- `save_summary` does not change the result of any repository-state
lookup. -/
@[simp] theorem getRepoState_save_summary (db : DB) (r s : String) (c : Nat)
    (n : Int) (q : String) :
    getRepoState (save_summary db r s c n) q = getRepoState db q := rfl

/-- C8: on the single commit with message "Fix bug\nmore detail", author
"Alice" and date "2024-01-01T00:00:00Z" (any sha) and no pull requests,
`format_changes_for_ai` returns exactly the header line plus one commit
line built from the first message line only, with no pull-request
section. -/
theorem format_single_commit_scenario (sha : String) :
    format_changes_for_ai
      [{ sha := sha, message := "Fix bug\nmore detail", authorName := "Alice",
         authorDate := "2024-01-01T00:00:00Z" }] [] =
      "Recent Commits:\n- Fix bug (by Alice on 2024-01-01T00:00:00Z)" := rfl

/-- C9: when no `last_check_timestamp` is stored for a repository, the
`since` value used by `check_repo_for_changes` for the commit fetch is
exactly `now` minus seven days, hence lies in the 7-day window ending at
the time of the call. -/
theorem default_lookback_window (env : Env) (db : DB) (repo : String)
    (h : get_last_check_time db repo = none) :
    sinceOf env db repo = env.now - sevenDays ∧
    env.now - sevenDays ≤ sinceOf env db repo ∧
    sinceOf env db repo ≤ env.now := by
  have h1 : sinceOf env db repo = env.now - sevenDays := by
    simp [sinceOf, h]
  have h7 : sevenDays = 604800 := by norm_num [sevenDays]
  exact ⟨h1, le_of_eq h1.symm, by rw [h1]; omega⟩

/-- Witness for C9 at a fresh database. -/
theorem default_lookback_window_witness :
    sinceOf envB dbEmpty "o/r" = envB.now - sevenDays ∧
    envB.now - sevenDays ≤ sinceOf envB dbEmpty "o/r" ∧
    sinceOf envB dbEmpty "o/r" ≤ envB.now :=
  default_lookback_window envB dbEmpty "o/r" rfl

/-- C2: when the commit fetch returns no commits and no fetched pull
request survives the watermark filter, `check_repo_for_changes` returns
`None` and the database — both tables and the autoincrement cursor — is
exactly what it was. -/
theorem no_changes_no_store_writes (env : Env) (db : DB) (repo : String)
    (pulls0 : List Pull)
    (hc : env.fetchCommits repo (sinceOf env db repo) = .ok [])
    (hp : env.fetchPulls repo = .ok pulls0)
    (hf : filteredPulls env db repo pulls0 = []) :
    check_repo_for_changes env db repo = (none, db) := by
  simp [check_repo_for_changes, hc, hp, hf]

/-- Witness for C2: empty fetches against a fresh database. -/
theorem no_changes_no_store_writes_witness :
    check_repo_for_changes envB dbEmpty "o/r" = (none, dbEmpty) :=
  no_changes_no_store_writes envB dbEmpty "o/r" [] rfl rfl rfl

/-- C1: whenever the change set is non-empty — the fetched commits plus
the watermark-filtered pull requests number at least one — exactly one
summary row is appended, its `changes_count` is that sum, and therefore
every persisted summary row keeps `changes_count > 0`. -/
theorem nonempty_changes_append_one_summary (env : Env) (db : DB)
    (repo : String) (commits : List Commit) (pulls0 : List Pull)
    (hc : env.fetchCommits repo (sinceOf env db repo) = .ok commits)
    (hp : env.fetchPulls repo = .ok pulls0)
    (hne : commits.length + (filteredPulls env db repo pulls0).length ≠ 0)
    (hinv : ∀ r ∈ db.summaries, 0 < r.changes_count) :
    ∃ row : SummaryRow,
      (check_repo_for_changes env db repo).2.summaries = db.summaries ++ [row] ∧
      row.changes_count =
        commits.length + (filteredPulls env db repo pulls0).length ∧
      ∀ r ∈ (check_repo_for_changes env db repo).2.summaries,
        0 < r.changes_count := by
  have hpos : 0 < commits.length + (filteredPulls env db repo pulls0).length :=
    Nat.pos_of_ne_zero hne
  have hsum : (check_repo_for_changes env db repo).2.summaries =
      db.summaries ++
        [{ id := db.next_id, repo_name := repo,
           summary := generate_summary env
             (format_changes_for_ai commits (filteredPulls env db repo pulls0))
             repo,
           changes_count :=
             commits.length + (filteredPulls env db repo pulls0).length,
           timestamp := env.now }] := by
    rw [check_success_eq env db repo commits pulls0 hc hp hne]
    cases commits <;> simp
  refine ⟨_, hsum, rfl, ?_⟩
  intro r hr
  rw [hsum] at hr
  rcases List.mem_append.mp hr with h | h
  · exact hinv r h
  · rw [List.mem_singleton.mp h]
    exact hpos

/-- Witness for C1: one fetched commit against a fresh database. -/
theorem nonempty_changes_append_one_summary_witness :
    ∃ row : SummaryRow,
      (check_repo_for_changes envA dbEmpty "o/r").2.summaries =
        dbEmpty.summaries ++ [row] ∧
      row.changes_count =
        [cW].length + (filteredPulls envA dbEmpty "o/r" []).length ∧
      ∀ r ∈ (check_repo_for_changes envA dbEmpty "o/r").2.summaries,
        0 < r.changes_count :=
  nonempty_changes_append_one_summary envA dbEmpty "o/r" [cW] []
    rfl rfl (by decide) (by simp [dbEmpty])

/-- C5: in a cycle with zero fetched commits and at least one filtered
pull-request change, the stored row for the repository after the cycle
carries the previous `last_commit_sha` (the empty string when no row
existed) and `last_check_timestamp` set to now. -/
theorem pr_only_cycle_preserves_sha (env : Env) (db : DB) (repo : String)
    (pulls0 : List Pull)
    (hc : env.fetchCommits repo (sinceOf env db repo) = .ok [])
    (hp : env.fetchPulls repo = .ok pulls0)
    (hne : filteredPulls env db repo pulls0 ≠ []) :
    getRepoState (check_repo_for_changes env db repo).2 repo =
      some { repo_name := repo, last_commit_sha := storedShaD db repo,
             last_check_timestamp := env.now } := by
  have hne2 : ([] : List Commit).length +
      (filteredPulls env db repo pulls0).length ≠ 0 := by
    simpa [List.length_eq_zero] using hne
  rw [check_success_eq env db repo [] pulls0 hc hp hne2]
  simp [update_repo_state_pr_only, getRepoState_update_self]

/-- Witness for C5: a pull-request-only cycle against a database whose
stored SHA for the repository is "sha0". -/
theorem pr_only_cycle_preserves_sha_witness :
    getRepoState (check_repo_for_changes envP dbT "o/r").2 "o/r" =
      some { repo_name := "o/r", last_commit_sha := storedShaD dbT "o/r",
             last_check_timestamp := envP.now } :=
  pr_only_cycle_preserves_sha envP dbT "o/r" [pW] rfl rfl (by decide)

/-- C6: `generate_summary` turns any failure of the completion call into
the string "Error generating summary: <detail>"; a check cycle with
changes still returns this degraded string as its summary, still appends a
summary row carrying it, and still updates the repository state for the
cycle. -/
theorem generation_failure_degraded (env : Env) (db : DB) (repo : String)
    (commits : List Commit) (pulls0 : List Pull) (e : String)
    (hc : env.fetchCommits repo (sinceOf env db repo) = .ok commits)
    (hp : env.fetchPulls repo = .ok pulls0)
    (hne : commits.length + (filteredPulls env db repo pulls0).length ≠ 0)
    (hgen : env.complete (buildPrompt
        (format_changes_for_ai commits (filteredPulls env db repo pulls0))
        repo) = .error e) :
    (check_repo_for_changes env db repo).1 =
      some ("Error generating summary: " ++ e) ∧
    (∃ row : SummaryRow,
      (check_repo_for_changes env db repo).2.summaries =
        db.summaries ++ [row] ∧
      row.summary = "Error generating summary: " ++ e) ∧
    (∃ r : RepoStateRow,
      getRepoState (check_repo_for_changes env db repo).2 repo = some r ∧
      r.last_check_timestamp = env.now) := by
  have hgs : generate_summary env
      (format_changes_for_ai commits (filteredPulls env db repo pulls0))
      repo = "Error generating summary: " ++ e := by
    simp [generate_summary, hgen]
  have hfst : (check_repo_for_changes env db repo).1 =
      some ("Error generating summary: " ++ e) := by
    rw [check_success_eq env db repo commits pulls0 hc hp hne]
    simp [hgs]
  have hsum : (check_repo_for_changes env db repo).2.summaries =
      db.summaries ++
        [{ id := db.next_id, repo_name := repo,
           summary := "Error generating summary: " ++ e,
           changes_count :=
             commits.length + (filteredPulls env db repo pulls0).length,
           timestamp := env.now }] := by
    rw [check_success_eq env db repo commits pulls0 hc hp hne]
    cases commits <;> simp [hgs]
  have hstate : ∃ r : RepoStateRow,
      getRepoState (check_repo_for_changes env db repo).2 repo = some r ∧
      r.last_check_timestamp = env.now := by
    rw [check_success_eq env db repo commits pulls0 hc hp hne]
    cases commits with
    | nil =>
      exact ⟨{ repo_name := repo, last_commit_sha := storedShaD db repo,
               last_check_timestamp := env.now },
        by simp [update_repo_state_pr_only, getRepoState_update_self], rfl⟩
    | cons c cs =>
      exact ⟨{ repo_name := repo, last_commit_sha := c.sha,
               last_check_timestamp := env.now },
        by simp [getRepoState_update_self], rfl⟩
  exact ⟨hfst, ⟨_, hsum, rfl⟩, hstate⟩

/-- Witness for C6: a failing completion call with one fetched commit. -/
theorem generation_failure_degraded_witness :
    (check_repo_for_changes envErr dbEmpty "o/r").1 =
      some ("Error generating summary: " ++ "boom") ∧
    (∃ row : SummaryRow,
      (check_repo_for_changes envErr dbEmpty "o/r").2.summaries =
        dbEmpty.summaries ++ [row] ∧
      row.summary = "Error generating summary: " ++ "boom") ∧
    (∃ r : RepoStateRow,
      getRepoState (check_repo_for_changes envErr dbEmpty "o/r").2 "o/r" =
        some r ∧
      r.last_check_timestamp = envErr.now) :=
  generation_failure_degraded envErr dbEmpty "o/r" [cW] [] "boom"
    rfl rfl (by decide) rfl

/-- C4: after a first check, a second check in immediate succession whose
commit fetch from the stored watermark returns nothing and whose fetched
pull requests all have update instants at or before the stored watermark
appends no new summary row (and writes nothing at all). -/
theorem watermark_advance_idempotent (env1 env2 : Env) (db db1 : DB)
    (repo : String) (T : Int) (pulls2 : List Pull)
    (h1 : (check_repo_for_changes env1 db repo).2 = db1)
    (hT : get_last_check_time db1 repo = some T)
    (hc : env2.fetchCommits repo T = .ok [])
    (hp : env2.fetchPulls repo = .ok pulls2)
    (hle : ∀ pr ∈ pulls2, env2.parseTime pr.updatedAt ≤ T) :
    check_repo_for_changes env2 db1 repo = (none, db1) ∧
    (check_repo_for_changes env2 db1 repo).2.summaries = db1.summaries := by
  have hs : sinceOf env2 db1 repo = T := by simp [sinceOf, hT]
  have hc2 : env2.fetchCommits repo (sinceOf env2 db1 repo) = .ok [] := by
    rw [hs]; exact hc
  have hf : filteredPulls env2 db1 repo pulls2 = [] := by
    simp only [filteredPulls, hT]
    rw [List.filter_eq_nil_iff]
    intro pr hpr
    simpa using not_lt.mpr (hle pr hpr)
  have hnone : check_repo_for_changes env2 db1 repo = (none, db1) := by
    simp [check_repo_for_changes, hc2, hp, hf]
  exact ⟨hnone, by rw [hnone]⟩

/-- Witness for C4: a first check against `envA` stores the watermark
1000000; a second check fetching no commits and one pull updated at
instant 4 appends nothing. -/
theorem watermark_advance_idempotent_witness :
    check_repo_for_changes envP db1W "o/r" = (none, db1W) ∧
    (check_repo_for_changes envP db1W "o/r").2.summaries = db1W.summaries :=
  watermark_advance_idempotent envA envP dbEmpty db1W "o/r" 1000000 [pW]
    rfl (by decide) rfl rfl (by decide)

/-- C7: when the commit fetch for one repository keeps failing with a
transport error, its check is caught to a `None` result with the database
untouched, and a batch over any list containing it behaves exactly as the
batch over the list with it removed — the other repositories are still
processed in order. -/
theorem failed_repo_skipped (env : Env) (db : DB) (repo : String)
    (l1 l2 : List String)
    (hfail : ∀ since : Int, ∃ e, env.fetchCommits repo since = .error e) :
    (∀ d : DB, check_repo_for_changes env d repo = (none, d)) ∧
    check_all_repos env db (l1 ++ repo :: l2) =
      check_all_repos env db (l1 ++ l2) := by
  have hskip : ∀ d : DB, check_repo_for_changes env d repo = (none, d) := by
    intro d
    obtain ⟨e, he⟩ := hfail (sinceOf env d repo)
    simp [check_repo_for_changes, he]
  refine ⟨hskip, ?_⟩
  unfold check_all_repos
  rw [List.foldl_append, List.foldl_append]
  simp [hskip]

/-- Witness for C7: a batch of three repositories whose middle element
always fails to fetch. -/
theorem failed_repo_skipped_witness :
    check_repo_for_changes envFail dbEmpty "o/r" = (none, dbEmpty) ∧
    check_all_repos envFail dbEmpty (["a/b"] ++ "o/r" :: ["c/d"]) =
      check_all_repos envFail dbEmpty (["a/b"] ++ ["c/d"]) :=
  ⟨(failed_repo_skipped envFail dbEmpty "o/r" ["a/b"] ["c/d"]
      (fun _ => ⟨"net down", rfl⟩)).1 dbEmpty,
   (failed_repo_skipped envFail dbEmpty "o/r" ["a/b"] ["c/d"]
      (fun _ => ⟨"net down", rfl⟩)).2⟩

/-- C10: on a first-ever check (no stored watermark) the fetched pull
requests are not filtered at all; even when every fetched pull is older
than the 7-day default look-back window, they are all counted and a
summary row is appended with their number as its change count. -/
theorem first_check_counts_stale_pulls (env : Env) (db : DB) (repo : String)
    (pulls0 : List Pull)
    (hnone : get_last_check_time db repo = none)
    (hc : env.fetchCommits repo (sinceOf env db repo) = .ok [])
    (hp : env.fetchPulls repo = .ok pulls0)
    (hne : pulls0 ≠ [])
    (hstale : ∀ pr ∈ pulls0, env.parseTime pr.updatedAt ≤ env.now - sevenDays) :
    filteredPulls env db repo pulls0 = pulls0 ∧
    (check_repo_for_changes env db repo).1 =
      some (generate_summary env (format_changes_for_ai [] pulls0) repo) ∧
    ∃ row : SummaryRow,
      (check_repo_for_changes env db repo).2.summaries =
        db.summaries ++ [row] ∧
      row.changes_count = pulls0.length := by
  have hfp : filteredPulls env db repo pulls0 = pulls0 := by
    simp [filteredPulls, hnone]
  have hne2 : ([] : List Commit).length +
      (filteredPulls env db repo pulls0).length ≠ 0 := by
    simpa [hfp, List.length_eq_zero] using hne
  refine ⟨hfp, ?_, ?_⟩
  · rw [check_success_eq env db repo [] pulls0 hc hp hne2]
    simp [hfp]
  · rw [check_success_eq env db repo [] pulls0 hc hp hne2]
    exact ⟨{ id := db.next_id, repo_name := repo,
             summary := generate_summary env
               (format_changes_for_ai [] pulls0) repo,
             changes_count := pulls0.length, timestamp := env.now },
      by simp [hfp], rfl⟩

/-- Witness for C10: one stale fetched pull against a fresh database. -/
theorem first_check_counts_stale_pulls_witness :
    filteredPulls envP dbEmpty "o/r" [pW] = [pW] ∧
    (check_repo_for_changes envP dbEmpty "o/r").1 =
      some (generate_summary envP (format_changes_for_ai [] [pW]) "o/r") ∧
    ∃ row : SummaryRow,
      (check_repo_for_changes envP dbEmpty "o/r").2.summaries =
        dbEmpty.summaries ++ [row] ∧
      row.changes_count = [pW].length :=
  first_check_counts_stale_pulls envP dbEmpty "o/r" [pW]
    rfl rfl rfl (by decide) (by decide)

/-- C3 counterexample: with a stored watermark of 2 and six fetched pull
requests all updated strictly after it, the sixth is counted in the change
total yet absent from the formatted text, whose pull section lists only
the first five filtered pulls — so "counted and included in the formatted
text iff updated after the watermark" fails in the left-to-right
direction. -/
theorem pull_filter_take5_counterexample :
    get_last_check_time dbT "o/r" = some 2 ∧
    mkPullT "t6" ∈ pullsC ∧
    2 < envC.parseTime (mkPullT "t6").updatedAt ∧
    mkPullT "t6" ∈ filteredPulls envC dbT "o/r" pullsC ∧
    mkPullT "t6" ∉ (filteredPulls envC dbT "o/r" pullsC).take 5 ∧
    format_changes_for_ai [] (filteredPulls envC dbT "o/r" pullsC) =
      format_changes_for_ai []
        [mkPullT "t1", mkPullT "t2", mkPullT "t3", mkPullT "t4",
         mkPullT "t5"] := by
  refine ⟨rfl, by decide, by decide, by decide, by decide, ?_⟩
  rfl

/-- C3 amended: with a stored watermark T, a fetched pull request is
counted in the change total iff its parsed update instant is strictly
greater than T; every fetched pull at or before T is excluded from both
the count and the formatted text, and the formatted text shows only the
first five surviving pulls. -/
theorem pull_filter_amended (env : Env) (db : DB) (repo : String) (T : Int)
    (pulls0 : List Pull)
    (hT : get_last_check_time db repo = some T) :
    (∀ pr ∈ pulls0,
      (pr ∈ filteredPulls env db repo pulls0 ↔ T < env.parseTime pr.updatedAt)) ∧
    (∀ pr ∈ pulls0, env.parseTime pr.updatedAt ≤ T →
      pr ∉ (filteredPulls env db repo pulls0).take 5) ∧
    (∀ (commits : List Commit) (pulls : List Pull),
      format_changes_for_ai commits pulls =
        format_changes_for_ai commits (pulls.take 5)) := by
  have hmem : ∀ pr ∈ pulls0,
      (pr ∈ filteredPulls env db repo pulls0 ↔ T < env.parseTime pr.updatedAt) := by
    intro pr hpr
    simp [filteredPulls, hT, List.mem_filter, hpr]
  refine ⟨hmem, ?_, ?_⟩
  · intro pr hpr hle hin
    exact absurd ((hmem pr hpr).mp (List.mem_of_mem_take hin)) (not_lt.mpr hle)
  · intro commits pulls
    cases pulls with
    | nil => rfl
    | cons p ps =>
      simp [format_changes_for_ai, List.take_take]

/-- Witness for the amended C3 at the stored watermark 2 of `dbT`. -/
theorem pull_filter_amended_witness :
    (∀ pr ∈ pullsC,
      (pr ∈ filteredPulls envC dbT "o/r" pullsC ↔
        2 < envC.parseTime pr.updatedAt)) ∧
    (∀ pr ∈ pullsC, envC.parseTime pr.updatedAt ≤ 2 →
      pr ∉ (filteredPulls envC dbT "o/r" pullsC).take 5) ∧
    (∀ (commits : List Commit) (pulls : List Pull),
      format_changes_for_ai commits pulls =
        format_changes_for_ai commits (pulls.take 5)) :=
  pull_filter_amended envC dbT "o/r" 2 pullsC rfl
